import Mathlib

/-!
Verification of the rust-state-machine runtime: a shallow embedding of the
system, balances and proof-of-existence pallets, the runtime dispatch layer
and the block executor, with theorems settling the specification claims.

Concrete types from `src/rust-state-machine/src/main.rs`:
`AccountId = String`, `Balance = u128`, `BlockNumber = u32`, `Nonce = u32`,
`Content = &'static str`.  Balances are embedded as `Nat` with the `u128`
maximum checked explicitly where the code checks it; block numbers and
nonces are embedded as `Nat` (the specification requires the increments to
be non-wrapping, so no claim exercises `u32` wraparound).  `BTreeMap` is
embedded as an association list with unique keys: `insert` replaces any
existing binding, `remove` deletes it, and lookup returns the first (hence
only) binding.
-/

/-- Lookup in an association-list map: the value bound to `k`, if any.
Embeds `BTreeMap::get`. -/
def lookupKV {V : Type} : List (String × V) → String → Option V
  | [], _ => none
  | e :: rest, k => if e.1 = k then some e.2 else lookupKV rest k

/-- Remove every binding of `k`.  Embeds `BTreeMap::remove` (on maps with
unique keys the two agree). -/
def removeKV {V : Type} (m : List (String × V)) (k : String) : List (String × V) :=
  m.filter (fun e => decide (e.1 ≠ k))

/-- Bind `k` to `v`, replacing any previous binding.  Embeds
`BTreeMap::insert`. -/
def insertKV {V : Type} (m : List (String × V)) (k : String) (v : V) : List (String × V) :=
  (k, v) :: removeKV m k

/-- The map has no duplicate keys — the structural invariant every
`BTreeMap` enjoys. -/
def KeysNodup {V : Type} (m : List (String × V)) : Prop :=
  (m.map Prod.fst).Nodup

instance {V : Type} (m : List (String × V)) : Decidable (KeysNodup m) :=
  inferInstanceAs (Decidable ((m.map Prod.fst).Nodup))

/-- Sum of all values of the map: for a balances map, the total supply. -/
def sumValues (m : List (String × Nat)) : Nat :=
  (m.map Prod.snd).sum

deriving instance DecidableEq for Except

/-- The runtime result type, from `src/rust-state-machine/src/support.rs`:
`Result<(), &'static str>`. -/
abbrev DispatchResult := Except String Unit

/-- Modelled from the spec: the AccountState module (`system.rs` is not in
the sources; §4.1 of the spec is its contract).  It tracks the single
global block number and a per-account nonce map. -/
structure SystemPallet where
  block_number : Nat
  nonces : List (String × Nat)
  deriving DecidableEq

/-- Modelled from the spec: a fresh AccountState module has block number 0
and no nonces. -/
def SystemPallet.new : SystemPallet :=
  { block_number := 0, nonces := [] }

/-- Modelled from the spec: `inc_block_number` adds exactly 1 to the global
block number (§4.1: "block number += 1", non-wrapping). -/
def SystemPallet.inc_block_number (p : SystemPallet) : SystemPallet :=
  { p with block_number := p.block_number + 1 }

/-- Modelled from the spec: `nonce(account)` returns the stored nonce or 0
for an unseen account. -/
def SystemPallet.nonce (p : SystemPallet) (who : String) : Nat :=
  (lookupKV p.nonces who).getD 0

/-- Modelled from the spec: `inc_nonce` sets the nonce to stored-value + 1,
treating an unseen account as 0. -/
def SystemPallet.inc_nonce (p : SystemPallet) (who : String) : SystemPallet :=
  { p with nonces := insertKV p.nonces who (p.nonce who + 1) }

/-- The maximum of the balance type `u128` chosen in `main.rs`. -/
def U128MAX : Nat := 2 ^ 128 - 1

/-- Modelled from the spec: the LedgerModule state (`balances.rs` is not in
the sources; §4.2 of the spec is its contract): a per-account balance map. -/
structure BalancesPallet where
  balances : List (String × Nat)
  deriving DecidableEq

/-- Modelled from the spec: a fresh LedgerModule has no balances. -/
def BalancesPallet.new : BalancesPallet :=
  { balances := [] }

/-- Modelled from the spec: `balance(account)` is the stored balance or 0. -/
def BalancesPallet.balance (p : BalancesPallet) (who : String) : Nat :=
  (lookupKV p.balances who).getD 0

/-- Modelled from the spec: `set_balance` is an unconditional overwrite. -/
def BalancesPallet.set_balance (p : BalancesPallet) (who : String) (amount : Nat) :
    BalancesPallet :=
  { p with balances := insertKV p.balances who amount }

/-- Modelled from the spec: `transfer(caller, to, amount)` (§4.2).  It fails
with `InsufficientBalance` when the caller balance is below `amount` and
with `Overflow` when crediting `to` would exceed the `u128` maximum; in
either case no balance is mutated.  On success the debit and the credit
happen as one atomic step.  The spec fixes self-transfer to leave the
balance unchanged ("debit and credit observably cancel"), so the credit
reads the post-debit balance of `to`. -/
def BalancesPallet.transfer (p : BalancesPallet) (caller dest : String) (amount : Nat) :
    DispatchResult × BalancesPallet :=
  let caller_balance := p.balance caller
  if caller_balance < amount then
    (.error "InsufficientBalance", p)
  else
    let debited := p.set_balance caller (caller_balance - amount)
    let to_balance := debited.balance dest
    if U128MAX < to_balance + amount then
      (.error "Overflow", p)
    else
      (.ok (), debited.set_balance dest (to_balance + amount))

/-- The Proof of Existence module state, from
`src/rust-state-machine/src/proof_of_existence.rs`: a map from content to
the owner of that content. -/
structure PoePallet where
  claims : List (String × String)
  deriving DecidableEq

/-- A fresh Proof of Existence module: empty claims map. -/
def PoePallet.new : PoePallet :=
  { claims := [] }

/-- `get_claim`: the owner (if any) of a claim. -/
def PoePallet.get_claim (p : PoePallet) (claim : String) : Option String :=
  lookupKV p.claims claim

/-- `create_claim`: errors when the content is already claimed, otherwise
records the caller as owner. -/
def PoePallet.create_claim (p : PoePallet) (caller claim : String) :
    DispatchResult × PoePallet :=
  if (lookupKV p.claims claim).isSome then
    (.error "this content is already claimed", p)
  else
    (.ok (), { claims := insertKV p.claims claim caller })

/-- `revoke_claim`: errors when the claim does not exist or the caller is
not its owner, otherwise removes the claim. -/
def PoePallet.revoke_claim (p : PoePallet) (caller claim : String) :
    DispatchResult × PoePallet :=
  match p.get_claim claim with
  | none => (.error "claim does not exist", p)
  | some owner =>
    if owner ≠ caller then
      (.error "This content is owned by another account", p)
    else
      (.ok (), { claims := removeKV p.claims claim })

/-- The balances call union; the variant and its fields appear in `main.rs`
(`balances::Call::transfer { to, amount }`). -/
inductive BalancesCall
  | transfer (dest : String) (amount : Nat)
  deriving DecidableEq

/-- The proof-of-existence call union; the variants and their fields appear
in `main.rs`. -/
inductive PoeCall
  | create_claim (claim : String)
  | revoke_claim (claim : String)
  deriving DecidableEq

/-- Modelled from the spec: the module-level dispatch of the balances
pallet.  The routing is generated by the `#[macros::call]` facility (not in
the sources); §4.4 of the spec: each variant forwards `(caller, remaining
fields)` to the method of the same name. -/
def BalancesPallet.dispatch (p : BalancesPallet) (caller : String) :
    BalancesCall → DispatchResult × BalancesPallet
  | .transfer dest amount => p.transfer caller dest amount

/-- Modelled from the spec: the module-level dispatch of the
proof-of-existence pallet, generated by `#[macros::call]` (§4.4 of the
spec). -/
def PoePallet.dispatch (p : PoePallet) (caller : String) :
    PoeCall → DispatchResult × PoePallet
  | .create_claim claim => p.create_claim caller claim
  | .revoke_claim claim => p.revoke_claim caller claim

/-- The runtime call union, from `main.rs`. -/
inductive RuntimeCall
  | Balances (call : BalancesCall)
  | ProofOfExistence (call : PoeCall)
  deriving DecidableEq

/-- The runtime, from `main.rs`: one instance of each pallet. -/
structure Runtime where
  system : SystemPallet
  balances : BalancesPallet
  poe : PoePallet
  deriving DecidableEq

/-- `Runtime::new`: every pallet in its initial state. -/
def Runtime.new : Runtime :=
  { system := SystemPallet.new, balances := BalancesPallet.new, poe := PoePallet.new }

/-- `Runtime::dispatch`, from `main.rs`: matches on the call tag, forwards
the caller and the inner call to the matching pallet, and propagates the
result (the source writes `pallet.dispatch(caller, call)?; ... Ok(())`,
which returns exactly the Result of the pallet method). -/
def Runtime.dispatch (rt : Runtime) (caller : String) :
    RuntimeCall → DispatchResult × Runtime
  | .Balances call =>
    let r := rt.balances.dispatch caller call
    (r.1, { rt with balances := r.2 })
  | .ProofOfExistence call =>
    let r := rt.poe.dispatch caller call
    (r.1, { rt with poe := r.2 })

/-- An extrinsic, from `support.rs`: a caller and a call. -/
structure Extrinsic where
  caller : String
  call : RuntimeCall
  deriving DecidableEq

/-- A block header, from `support.rs`: just the block number. -/
structure Header where
  block_number : Nat
  deriving DecidableEq

/-- A block, from `support.rs`: a header plus ordered extrinsics. -/
structure Block where
  header : Header
  extrinsics : List Extrinsic
  deriving DecidableEq

/-- The extrinsic loop of `Runtime::execute_block` in `main.rs`: for each
extrinsic in order, increment the nonce of the caller, then dispatch the
call and discard its result (the source only prints a log line built from
the enumerate index on failure, which has no effect on state). -/
def Runtime.applyExtrinsics (rt : Runtime) : List Extrinsic → Runtime
  | [] => rt
  | ext :: rest =>
    let rt1 : Runtime := { rt with system := rt.system.inc_nonce ext.caller }
    let rt2 := (rt1.dispatch ext.caller ext.call).2
    rt2.applyExtrinsics rest

/-- `Runtime::execute_block`, from `main.rs`: increment the block number,
reject the block when the new number differs from the header, otherwise run
every extrinsic and return Ok. -/
def Runtime.execute_block (rt : Runtime) (b : Block) : DispatchResult × Runtime :=
  let rt1 : Runtime := { rt with system := rt.system.inc_block_number }
  if rt1.system.block_number ≠ b.header.block_number then
    (.error "Block number does not match what is expected", rt1)
  else
    (.ok (), rt1.applyExtrinsics b.extrinsics)

/-- One step of the extrinsic loop as a fold step: increment the nonce of
the caller, dispatch, keep the state. -/
def extStep (rt : Runtime) (ext : Extrinsic) : Runtime :=
  (({ rt with system := rt.system.inc_nonce ext.caller }).dispatch ext.caller ext.call).2

/-- A proof-of-existence operation, for reachability statements. -/
inductive PoeOp
  | create (caller claim : String)
  | revoke (caller claim : String)
  deriving DecidableEq

/-- Apply one proof-of-existence operation, keeping the state whether the
operation succeeded or failed. -/
def PoePallet.applyOp (p : PoePallet) : PoeOp → PoePallet
  | .create caller claim => (p.create_claim caller claim).2
  | .revoke caller claim => (p.revoke_claim caller claim).2

/-- Apply a sequence of proof-of-existence operations in order. -/
def PoePallet.applyOps (p : PoePallet) (ops : List PoeOp) : PoePallet :=
  ops.foldl PoePallet.applyOp p

/-- Unfolding lemma: lookup on a cons cell. -/
theorem lookupKV_cons {V : Type} (e : String × V) (rest : List (String × V)) (k : String) :
    lookupKV (e :: rest) k = if e.1 = k then some e.2 else lookupKV rest k :=
  rfl

/-- Unfolding lemma: removal on a cons cell. -/
theorem removeKV_cons {V : Type} (e : String × V) (rest : List (String × V)) (k : String) :
    removeKV (e :: rest) k = if e.1 = k then removeKV rest k else e :: removeKV rest k := by
  by_cases h : e.1 = k <;> simp [removeKV, List.filter_cons, h]

/-- Unfolding lemma: value sum on a cons cell. -/
theorem sumValues_cons (e : String × Nat) (rest : List (String × Nat)) :
    sumValues (e :: rest) = e.2 + sumValues rest := by
  simp [sumValues]

/-- Lookup after removing a key finds nothing under that key. -/
theorem lookupKV_removeKV_self {V : Type} (m : List (String × V)) (k : String) :
    lookupKV (removeKV m k) k = none := by
  induction m with
  | nil => rfl
  | cons e rest ih =>
    rw [removeKV_cons]
    by_cases h : e.1 = k
    · rw [if_pos h]
      exact ih
    · rw [if_neg h, lookupKV_cons, if_neg h]
      exact ih

/-- Removing one key leaves lookups of other keys unchanged. -/
theorem lookupKV_removeKV_ne {V : Type} (m : List (String × V)) (k k2 : String)
    (h : k2 ≠ k) : lookupKV (removeKV m k) k2 = lookupKV m k2 := by
  induction m with
  | nil => rfl
  | cons e rest ih =>
    rw [removeKV_cons, lookupKV_cons]
    by_cases he : e.1 = k
    · rw [if_pos he, ih, if_neg (show ¬e.1 = k2 from fun hk2 => h (hk2 ▸ he))]
    · rw [if_neg he, lookupKV_cons]
      by_cases he2 : e.1 = k2
      · rw [if_pos he2, if_pos he2]
      · rw [if_neg he2, if_neg he2]
        exact ih

/-- Lookup of a freshly inserted key returns the inserted value. -/
theorem lookupKV_insertKV_self {V : Type} (m : List (String × V)) (k : String) (v : V) :
    lookupKV (insertKV m k v) k = some v := by
  simp [insertKV, lookupKV]

/-- Inserting one key leaves lookups of other keys unchanged. -/
theorem lookupKV_insertKV_ne {V : Type} (m : List (String × V)) (k k2 : String) (v : V)
    (h : k2 ≠ k) : lookupKV (insertKV m k v) k2 = lookupKV m k2 := by
  rw [insertKV, lookupKV_cons, if_neg (fun hk => h hk.symm)]
  exact lookupKV_removeKV_ne m k k2 h

/-- Removing a key preserves key uniqueness. -/
theorem keysNodup_removeKV {V : Type} (m : List (String × V)) (k : String)
    (h : KeysNodup m) : KeysNodup (removeKV m k) := by
  have hsub : List.Sublist (removeKV m k) m := List.filter_sublist m
  exact (hsub.map Prod.fst).nodup h

/-- A removed key is absent from the keys of the result. -/
theorem not_mem_keys_removeKV {V : Type} (m : List (String × V)) (k : String) :
    k ∉ (removeKV m k).map Prod.fst := by
  intro hmem
  rcases List.mem_map.mp hmem with ⟨e, he, hfst⟩
  have hp := List.of_mem_filter he
  simp only [decide_eq_true_eq] at hp
  exact hp hfst

/-- Inserting a key preserves key uniqueness. -/
theorem keysNodup_insertKV {V : Type} (m : List (String × V)) (k : String) (v : V)
    (h : KeysNodup m) : KeysNodup (insertKV m k v) := by
  have h1 : k ∉ (removeKV m k).map Prod.fst := not_mem_keys_removeKV m k
  have h2 : KeysNodup (removeKV m k) := keysNodup_removeKV m k h
  unfold KeysNodup insertKV
  rw [List.map_cons]
  exact List.nodup_cons.mpr ⟨h1, h2⟩

/-- Removing an absent key is the identity. -/
theorem removeKV_eq_self {V : Type} (m : List (String × V)) (k : String)
    (h : k ∉ m.map Prod.fst) : removeKV m k = m := by
  apply List.filter_eq_self.mpr
  intro e he
  simp only [decide_eq_true_eq]
  intro hek
  exact h (List.mem_map.mpr ⟨e, he, hek⟩)

/-- On a map with unique keys, the total of the values splits into the
value at any key plus the total after removing that key. -/
theorem sumValues_split (m : List (String × Nat)) (k : String) (h : KeysNodup m) :
    sumValues m = (lookupKV m k).getD 0 + sumValues (removeKV m k) := by
  induction m with
  | nil => rfl
  | cons e rest ih =>
    have h2 : e.1 ∉ rest.map Prod.fst ∧ KeysNodup rest := by
      simpa [KeysNodup, List.nodup_cons] using h
    rw [sumValues_cons, lookupKV_cons, removeKV_cons]
    by_cases hek : e.1 = k
    · rw [if_pos hek, if_pos hek]
      have hrr : removeKV rest k = rest := removeKV_eq_self rest k (hek ▸ h2.1)
      rw [hrr]
      simp
    · rw [if_neg hek, if_neg hek, sumValues_cons, ih h2.2]
      omega

/-- Setting an account balance makes that account read the new value. -/
theorem balance_set_self (p : BalancesPallet) (who : String) (amount : Nat) :
    (p.set_balance who amount).balance who = amount := by
  simp [BalancesPallet.balance, BalancesPallet.set_balance, lookupKV_insertKV_self]

/-- Setting an account balance leaves every other account unchanged. -/
theorem balance_set_ne (p : BalancesPallet) (who who2 : String) (amount : Nat)
    (h : who2 ≠ who) : (p.set_balance who amount).balance who2 = p.balance who2 := by
  simp [BalancesPallet.balance, BalancesPallet.set_balance,
    lookupKV_insertKV_ne p.balances who who2 amount h]

/-- Runtime dispatch never touches the system pallet. -/
theorem dispatch_system (rt : Runtime) (caller : String) (call : RuntimeCall) :
    (rt.dispatch caller call).2.system = rt.system := by
  cases call <;> rfl

/-- The extrinsic loop of `execute_block` is a left fold of `extStep`. -/
theorem applyExtrinsics_eq_foldl (l : List Extrinsic) :
    ∀ rt : Runtime, rt.applyExtrinsics l = l.foldl extStep rt := by
  induction l with
  | nil => intro rt; rfl
  | cons ext rest ih =>
    intro rt
    rw [List.foldl_cons]
    exact ih (extStep rt ext)

/-- Incrementing the nonce of an account adds 1 to its nonce. -/
theorem nonce_inc_nonce_self (p : SystemPallet) (who : String) :
    (p.inc_nonce who).nonce who = p.nonce who + 1 := by
  simp [SystemPallet.inc_nonce, SystemPallet.nonce, lookupKV_insertKV_self]

/-- Incrementing the nonce of an account leaves other nonces unchanged. -/
theorem nonce_inc_nonce_ne (p : SystemPallet) (who who2 : String) (h : who2 ≠ who) :
    (p.inc_nonce who).nonce who2 = p.nonce who2 := by
  unfold SystemPallet.inc_nonce SystemPallet.nonce
  rw [lookupKV_insertKV_ne _ _ _ _ h]

/-- Across the extrinsic fold, each account's nonce grows by exactly the
number of extrinsics it signed, whatever each dispatch returned. -/
theorem foldl_extStep_nonce (l : List Extrinsic) :
    ∀ (rt : Runtime) (a : String),
      (l.foldl extStep rt).system.nonce a
        = rt.system.nonce a + l.countP (fun e => e.caller == a) := by
  induction l with
  | nil => intro rt a; simp
  | cons e rest ih =>
    intro rt a
    rw [List.foldl_cons, ih, List.countP_cons]
    have hsys : (extStep rt e).system = rt.system.inc_nonce e.caller :=
      dispatch_system { rt with system := rt.system.inc_nonce e.caller } e.caller e.call
    rw [hsys]
    by_cases hc : e.caller = a
    · rw [hc, nonce_inc_nonce_self]
      simp [hc]
      omega
    · rw [nonce_inc_nonce_ne rt.system e.caller a (fun h2 => hc h2.symm)]
      simp [hc]

/-- Applying one proof-of-existence operation preserves key uniqueness of
the claims map. -/
theorem keysNodup_applyOp (p : PoePallet) (op : PoeOp) (h : KeysNodup p.claims) :
    KeysNodup (p.applyOp op).claims := by
  cases op with
  | create caller claim =>
    by_cases hc : (lookupKV p.claims claim).isSome
    · simpa [PoePallet.applyOp, PoePallet.create_claim, hc] using h
    · simpa [PoePallet.applyOp, PoePallet.create_claim, hc] using
        keysNodup_insertKV p.claims claim caller h
  | revoke caller claim =>
    rcases hg : p.get_claim claim with _ | owner
    · simpa [PoePallet.applyOp, PoePallet.revoke_claim, hg] using h
    · by_cases ho : owner = caller
      · simpa [PoePallet.applyOp, PoePallet.revoke_claim, hg, ho] using
          keysNodup_removeKV p.claims claim h
      · simpa [PoePallet.applyOp, PoePallet.revoke_claim, hg, ho] using h

/-- Applying any sequence of proof-of-existence operations preserves key
uniqueness of the claims map. -/
theorem keysNodup_applyOps (ops : List PoeOp) :
    ∀ p : PoePallet, KeysNodup p.claims → KeysNodup (p.applyOps ops).claims := by
  induction ops with
  | nil => intro p h; exact h
  | cons op rest ih =>
    intro p h
    exact ih (p.applyOp op) (keysNodup_applyOp p op h)

/-- A map with unique keys holds at most one entry per key. -/
theorem countP_le_one_of_keysNodup {V : Type} (m : List (String × V)) (k : String)
    (h : KeysNodup m) : m.countP (fun e => e.1 == k) ≤ 1 := by
  induction m with
  | nil => simp
  | cons e rest ih =>
    have h2 : e.1 ∉ rest.map Prod.fst ∧ KeysNodup rest := by
      simpa [KeysNodup, List.nodup_cons] using h
    rw [List.countP_cons]
    by_cases hek : e.1 = k
    · have hzero : rest.countP (fun e2 => e2.1 == k) = 0 := by
        apply List.countP_eq_zero.mpr
        intro e2 he2
        simp only [beq_iff_eq]
        intro hkk
        exact h2.1 (List.mem_map.mpr ⟨e2, he2, hkk.trans hek.symm⟩)
      simp [hek, hzero]
    · simp only [beq_iff_eq, hek, if_neg]
      simpa using ih h2.2

/-- A successful revoke leaves exactly the claims map with the revoked key
removed. -/
theorem revoke_ok_state (p : PoePallet) (a k : String)
    (h : (p.revoke_claim a k).1 = .ok ()) :
    (p.revoke_claim a k).2 = { claims := removeKV p.claims k } := by
  rcases hg : p.get_claim k with _ | owner
  · simp [PoePallet.revoke_claim, hg] at h
  · by_cases ho : owner = a
    · simp [PoePallet.revoke_claim, hg, ho]
    · simp [PoePallet.revoke_claim, hg, ho] at h

/-- Claim C1: for every runtime state and candidate block, `execute_block`
first increments the global block number by 1; when the new block number
differs from the header it returns the fatal block-number error, no
extrinsic is applied (nonces, balances and claims are exactly as before),
and the increment is not rolled back. -/
theorem execute_block_rejects_mismatch (rt : Runtime) (b : Block)
    (h : rt.system.block_number + 1 ≠ b.header.block_number) :
    rt.execute_block b =
      (.error "Block number does not match what is expected",
        { rt with system :=
            { rt.system with block_number := rt.system.block_number + 1 } }) := by
  simp [Runtime.execute_block, SystemPallet.inc_block_number, h]

theorem execute_block_rejects_mismatch_witness :
    Runtime.new.execute_block { header := { block_number := 5 }, extrinsics := [] } =
      (.error "Block number does not match what is expected",
        { Runtime.new with system :=
            { Runtime.new.system with
                block_number := Runtime.new.system.block_number + 1 } }) :=
  execute_block_rejects_mismatch Runtime.new
    { header := { block_number := 5 }, extrinsics := [] } (by decide)

/-- Claim C2: when the block-number check passes, `execute_block` folds the
extrinsics in order (each step increments the caller nonce and then
dispatches, keeping the state whatever the dispatch returned) and returns
success regardless of how many dispatches failed; moreover every account
ends with its nonce advanced by exactly the number of extrinsics it
signed, so no dispatch failure prevents later extrinsics or nonce
increments. -/
theorem execute_block_ok_processes_in_order (rt : Runtime) (b : Block)
    (h : rt.system.block_number + 1 = b.header.block_number) :
    rt.execute_block b
        = (.ok (), b.extrinsics.foldl extStep
            { rt with system := rt.system.inc_block_number }) ∧
    ∀ a : String,
      (b.extrinsics.foldl extStep
          { rt with system := rt.system.inc_block_number }).system.nonce a
        = rt.system.nonce a + b.extrinsics.countP (fun e => e.caller == a) := by
  constructor
  · simp [Runtime.execute_block, SystemPallet.inc_block_number, h,
      applyExtrinsics_eq_foldl]
  · intro a
    rw [foldl_extStep_nonce]
    rfl

theorem execute_block_ok_processes_in_order_witness :
    Runtime.new.execute_block
        { header := { block_number := 1 },
          extrinsics :=
            [{ caller := "alice", call := .Balances (.transfer "bob" 30) },
             { caller := "alice", call := .ProofOfExistence (.create_claim "doc") }] }
      = (.ok (),
          [({ caller := "alice", call := .Balances (.transfer "bob" 30) } : Extrinsic),
           { caller := "alice", call := .ProofOfExistence (.create_claim "doc") }].foldl
            extStep { Runtime.new with system := Runtime.new.system.inc_block_number }) ∧
    ([({ caller := "alice", call := .Balances (.transfer "bob" 30) } : Extrinsic),
      { caller := "alice", call := .ProofOfExistence (.create_claim "doc") }].foldl
        extStep
        { Runtime.new with
          system := Runtime.new.system.inc_block_number }).system.nonce "alice"
      = Runtime.new.system.nonce "alice"
        + [({ caller := "alice", call := .Balances (.transfer "bob" 30) } : Extrinsic),
           { caller := "alice", call := .ProofOfExistence (.create_claim "doc") }].countP
            (fun e => e.caller == "alice") := by
  refine ⟨?_, ?_⟩
  · exact (execute_block_ok_processes_in_order Runtime.new
      { header := { block_number := 1 },
        extrinsics :=
          [{ caller := "alice", call := .Balances (.transfer "bob" 30) },
           { caller := "alice", call := .ProofOfExistence (.create_claim "doc") }] }
      (by decide)).1
  · exact (execute_block_ok_processes_in_order Runtime.new
      { header := { block_number := 1 },
        extrinsics :=
          [{ caller := "alice", call := .Balances (.transfer "bob" 30) },
           { caller := "alice", call := .ProofOfExistence (.create_claim "doc") }] }
      (by decide)).2 "alice"

/-- Claim C5: `create_claim(caller, content)` fails with the
already-claimed error and leaves the claims map untouched whenever the
content currently has any owner; otherwise it succeeds and afterwards
`get_claim(content)` returns the caller. -/
theorem create_claim_spec (p : PoePallet) (caller claim : String) :
    (∀ o, p.get_claim claim = some o →
      p.create_claim caller claim = (.error "this content is already claimed", p)) ∧
    (p.get_claim claim = none →
      (p.create_claim caller claim).1 = .ok () ∧
      (p.create_claim caller claim).2.get_claim claim = some caller) := by
  constructor
  · intro o h
    have h2 : (lookupKV p.claims claim).isSome = true := by
      rw [show lookupKV p.claims claim = some o from h]
      rfl
    simp [PoePallet.create_claim, h2]
  · intro h
    have h2 : (lookupKV p.claims claim).isSome = false := by
      rw [show lookupKV p.claims claim = none from h]
      rfl
    constructor
    · simp [PoePallet.create_claim, h2]
    · simp [PoePallet.create_claim, h2, PoePallet.get_claim, lookupKV_insertKV_self]

theorem create_claim_spec_witness :
    PoePallet.create_claim { claims := [("doc", "alice")] } "bob" "doc"
      = (.error "this content is already claimed", { claims := [("doc", "alice")] }) ∧
    ((PoePallet.create_claim { claims := [("doc", "alice")] } "bob" "memo").1 = .ok () ∧
      (PoePallet.create_claim { claims := [("doc", "alice")] } "bob" "memo").2.get_claim
        "memo" = some "bob") :=
  ⟨(create_claim_spec { claims := [("doc", "alice")] } "bob" "doc").1 "alice" (by decide),
   (create_claim_spec { claims := [("doc", "alice")] } "bob" "memo").2 (by decide)⟩

/-- Claim C6: `revoke_claim(caller, content)` fails with the missing-claim
error when the content has no owner and with the not-owner error when the
owner differs from the caller, leaving the claims map untouched in both
cases; when the caller is the owner it succeeds, removes the mapping, and
afterwards `get_claim(content)` returns none. -/
theorem revoke_claim_spec (p : PoePallet) (caller claim : String) :
    (p.get_claim claim = none →
      p.revoke_claim caller claim = (.error "claim does not exist", p)) ∧
    (∀ o, p.get_claim claim = some o → o ≠ caller →
      p.revoke_claim caller claim
        = (.error "This content is owned by another account", p)) ∧
    (p.get_claim claim = some caller →
      (p.revoke_claim caller claim).1 = .ok () ∧
      (p.revoke_claim caller claim).2.get_claim claim = none) := by
  refine ⟨?_, ?_, ?_⟩
  · intro h
    simp [PoePallet.revoke_claim, h]
  · intro o h ho
    simp [PoePallet.revoke_claim, h, ho]
  · intro h
    have hl : lookupKV p.claims claim = some caller := h
    constructor
    · simp [PoePallet.revoke_claim, h]
    · simp [PoePallet.revoke_claim, hl, PoePallet.get_claim, lookupKV_removeKV_self]

theorem revoke_claim_spec_witness :
    PoePallet.revoke_claim { claims := [("doc", "alice")] } "alice" "memo"
      = (.error "claim does not exist", { claims := [("doc", "alice")] }) ∧
    PoePallet.revoke_claim { claims := [("doc", "alice")] } "bob" "doc"
      = (.error "This content is owned by another account",
          { claims := [("doc", "alice")] }) ∧
    ((PoePallet.revoke_claim { claims := [("doc", "alice")] } "alice" "doc").1 = .ok () ∧
      (PoePallet.revoke_claim { claims := [("doc", "alice")] } "alice" "doc").2.get_claim
        "doc" = none) :=
  ⟨(revoke_claim_spec { claims := [("doc", "alice")] } "alice" "memo").1 (by decide),
   (revoke_claim_spec { claims := [("doc", "alice")] } "bob" "doc").2.1 "alice"
     (by decide) (by decide),
   (revoke_claim_spec { claims := [("doc", "alice")] } "alice" "doc").2.2 (by decide)⟩

/-- Claim C7: every state reachable from the fresh module by create and
revoke operations holds at most one entry — hence at most one owner — per
content key, and any content whose claim was just successfully revoked can
immediately be claimed by a different owner. -/
theorem poe_unique_owner_and_reclaim (ops : List PoeOp) :
    (∀ k : String,
      (PoePallet.new.applyOps ops).claims.countP (fun e => e.1 == k) ≤ 1) ∧
    (∀ (p : PoePallet) (a b k : String), (p.revoke_claim a k).1 = .ok () →
      ((p.revoke_claim a k).2.create_claim b k).1 = .ok () ∧
      ((p.revoke_claim a k).2.create_claim b k).2.get_claim k = some b) := by
  constructor
  · intro k
    apply countP_le_one_of_keysNodup
    exact keysNodup_applyOps ops PoePallet.new (by simp [PoePallet.new, KeysNodup])
  · intro p a b k h
    rw [revoke_ok_state p a k h]
    have h2 : (lookupKV (removeKV p.claims k) k).isSome = false := by
      rw [lookupKV_removeKV_self]
      rfl
    constructor
    · simp [PoePallet.create_claim, h2]
    · simp [PoePallet.create_claim, h2, PoePallet.get_claim, lookupKV_insertKV_self]

theorem poe_unique_owner_and_reclaim_witness :
    (PoePallet.new.applyOps
        [PoeOp.create "alice" "doc", PoeOp.create "bob" "doc"]).claims.countP
      (fun e => e.1 == "doc") ≤ 1 ∧
    ((PoePallet.revoke_claim { claims := [("doc", "alice")] } "alice" "doc").2.create_claim
        "bob" "doc").1 = .ok () ∧
    ((PoePallet.revoke_claim { claims := [("doc", "alice")] } "alice" "doc").2.create_claim
        "bob" "doc").2.get_claim "doc" = some "bob" :=
  ⟨(poe_unique_owner_and_reclaim
      [PoeOp.create "alice" "doc", PoeOp.create "bob" "doc"]).1 "doc",
   ((poe_unique_owner_and_reclaim
      [PoeOp.create "alice" "doc", PoeOp.create "bob" "doc"]).2
      { claims := [("doc", "alice")] } "alice" "bob" "doc" (by decide)).1,
   ((poe_unique_owner_and_reclaim
      [PoeOp.create "alice" "doc", PoeOp.create "bob" "doc"]).2
      { claims := [("doc", "alice")] } "alice" "bob" "doc" (by decide)).2⟩

/-- Claim C10: a create or revoke on one content key — succeeding or
failing — never changes what `get_claim` returns for any other key. -/
theorem poe_frame (p : PoePallet) (caller k k2 : String) (h : k2 ≠ k) :
    (p.create_claim caller k).2.get_claim k2 = p.get_claim k2 ∧
    (p.revoke_claim caller k).2.get_claim k2 = p.get_claim k2 := by
  constructor
  · rcases hl : lookupKV p.claims k with _ | o
    · simp [PoePallet.create_claim, hl, PoePallet.get_claim,
        lookupKV_insertKV_ne _ _ _ _ h]
    · simp [PoePallet.create_claim, hl]
  · rcases hg : p.get_claim k with _ | owner
    · simp [PoePallet.revoke_claim, hg]
    · have hl : lookupKV p.claims k = some owner := hg
      by_cases ho : owner = caller
      · simp [PoePallet.revoke_claim, hl, ho, PoePallet.get_claim,
          lookupKV_removeKV_ne _ _ _ h]
      · simp [PoePallet.revoke_claim, hl, ho, PoePallet.get_claim]

theorem poe_frame_witness :
    (PoePallet.create_claim { claims := [("doc", "alice")] } "bob" "memo").2.get_claim
        "doc" = PoePallet.get_claim { claims := [("doc", "alice")] } "doc" ∧
    (PoePallet.revoke_claim { claims := [("doc", "alice")] } "bob" "memo").2.get_claim
        "doc" = PoePallet.get_claim { claims := [("doc", "alice")] } "doc" :=
  poe_frame { claims := [("doc", "alice")] } "bob" "memo" "doc" (by decide)

/-- The value sum of a double insert under distinct keys. -/
theorem sumValues_insert_insert (m : List (String × Nat)) (c d : String) (vc vd : Nat)
    (hcd : c ≠ d) :
    sumValues (insertKV (insertKV m c vc) d vd)
      = vd + vc + sumValues (removeKV (removeKV m c) d) := by
  rw [insertKV, sumValues_cons, insertKV, removeKV_cons,
    if_neg (show ¬(c, vc).1 = d from hcd), sumValues_cons]
  omega

/-- The value sum of a map with unique keys splits off the values at two
distinct keys. -/
theorem sumValues_remove_remove (m : List (String × Nat)) (c d : String)
    (hnd : KeysNodup m) (hcd : c ≠ d) :
    sumValues m = (lookupKV m c).getD 0 + (lookupKV m d).getD 0
      + sumValues (removeKV (removeKV m c) d) := by
  rw [sumValues_split m c hnd, sumValues_split (removeKV m c) d (keysNodup_removeKV m c hnd),
    lookupKV_removeKV_ne m c d hcd.symm]
  omega

/-- Claim C3: a successful transfer between two distinct accounts debits
the caller by exactly the amount, credits the destination by exactly the
amount, and conserves the sum of all balances. -/
theorem transfer_conservation (p : BalancesPallet) (caller dest : String) (amount : Nat)
    (hne : caller ≠ dest) (hnd : KeysNodup p.balances)
    (hok : (p.transfer caller dest amount).1 = .ok ()) :
    (p.transfer caller dest amount).2.balance caller + amount = p.balance caller ∧
    (p.transfer caller dest amount).2.balance dest = p.balance dest + amount ∧
    sumValues (p.transfer caller dest amount).2.balances = sumValues p.balances := by
  by_cases h1 : p.balance caller < amount
  · simp [BalancesPallet.transfer, h1] at hok
  · by_cases h2 : U128MAX <
        (p.set_balance caller (p.balance caller - amount)).balance dest + amount
    · simp [BalancesPallet.transfer, h1, h2] at hok
    · have hstate : (p.transfer caller dest amount).2
          = (p.set_balance caller (p.balance caller - amount)).set_balance dest
              ((p.set_balance caller (p.balance caller - amount)).balance dest + amount) := by
        simp [BalancesPallet.transfer, h1, h2]
      have hdb : (p.set_balance caller (p.balance caller - amount)).balance dest
          = p.balance dest := balance_set_ne p caller dest _ hne.symm
      refine ⟨?_, ?_, ?_⟩
      · rw [hstate, balance_set_ne _ _ _ _ hne, balance_set_self]
        omega
      · rw [hstate, balance_set_self, hdb]
      · rw [hstate, hdb]
        show sumValues (insertKV (insertKV p.balances caller (p.balance caller - amount))
            dest (p.balance dest + amount)) = sumValues p.balances
        rw [sumValues_insert_insert p.balances caller dest _ _ hne,
          sumValues_remove_remove p.balances caller dest hnd hne]
        have hc : (lookupKV p.balances caller).getD 0 = p.balance caller := rfl
        have hd : (lookupKV p.balances dest).getD 0 = p.balance dest := rfl
        rw [hc, hd]
        omega

theorem transfer_conservation_witness :
    ("alice" : String) ≠ "bob" ∧ KeysNodup [("alice", (100 : Nat))] ∧
    (BalancesPallet.transfer { balances := [("alice", 100)] } "alice" "bob" 30).1
      = .ok () ∧
    ((BalancesPallet.transfer { balances := [("alice", 100)] } "alice" "bob" 30).2.balance
        "alice" + 30 = BalancesPallet.balance { balances := [("alice", 100)] } "alice" ∧
      (BalancesPallet.transfer { balances := [("alice", 100)] } "alice" "bob" 30).2.balance
        "bob" = BalancesPallet.balance { balances := [("alice", 100)] } "bob" + 30 ∧
      sumValues (BalancesPallet.transfer
          { balances := [("alice", 100)] } "alice" "bob" 30).2.balances
        = sumValues ({ balances := [("alice", 100)] } : BalancesPallet).balances) :=
  ⟨by decide, by decide, by decide,
   transfer_conservation { balances := [("alice", 100)] } "alice" "bob" 30
     (by decide) (by decide) (by decide)⟩

/-- Claim C4: the transfer failure cases.  When the caller balance is below
the amount the call fails with the insufficiency error; when (the caller
balance suffices and) crediting the destination would push it past the
`u128` maximum the call fails with the overflow error; in either case the
pallet state is returned exactly as it was. -/
theorem transfer_failures (p : BalancesPallet) (caller dest : String) (amount : Nat) :
    (p.balance caller < amount →
      p.transfer caller dest amount = (.error "InsufficientBalance", p)) ∧
    (amount ≤ p.balance caller →
      U128MAX < (p.set_balance caller (p.balance caller - amount)).balance dest + amount →
      p.transfer caller dest amount = (.error "Overflow", p)) := by
  constructor
  · intro h1
    simp [BalancesPallet.transfer, h1]
  · intro h1 h2
    have h1x : ¬p.balance caller < amount := Nat.not_lt.mpr h1
    simp [BalancesPallet.transfer, h1x, h2]

theorem transfer_failures_witness :
    BalancesPallet.transfer { balances := [] } "alice" "bob" 1
      = (.error "InsufficientBalance", { balances := [] }) ∧
    BalancesPallet.transfer { balances := [("alice", 5), ("bob", U128MAX)] } "alice" "bob" 1
      = (.error "Overflow", { balances := [("alice", 5), ("bob", U128MAX)] }) :=
  ⟨(transfer_failures { balances := [] } "alice" "bob" 1).1 (by decide),
   (transfer_failures { balances := [("alice", 5), ("bob", U128MAX)] } "alice" "bob" 1).2
     (by decide) (by decide)⟩

/-- Claim C9: a self-transfer of an amount within the caller balance
succeeds and leaves that balance unchanged; the `u128` range bound on the
stored balance reflects the balance type of the source. -/
theorem transfer_self (p : BalancesPallet) (c : String) (amount : Nat)
    (h1 : amount ≤ p.balance c) (h2 : p.balance c ≤ U128MAX) :
    (p.transfer c c amount).1 = .ok () ∧
    (p.transfer c c amount).2.balance c = p.balance c := by
  have h1x : ¬p.balance c < amount := Nat.not_lt.mpr h1
  have hdb : (p.set_balance c (p.balance c - amount)).balance c
      = p.balance c - amount := balance_set_self p c _
  have hcond : ¬U128MAX <
      (p.set_balance c (p.balance c - amount)).balance c + amount := by
    rw [hdb]
    omega
  constructor
  · simp [BalancesPallet.transfer, h1x, hcond]
  · have hstate : (p.transfer c c amount).2
        = (p.set_balance c (p.balance c - amount)).set_balance c
            ((p.set_balance c (p.balance c - amount)).balance c + amount) := by
      simp [BalancesPallet.transfer, h1x, hcond]
    rw [hstate, balance_set_self, hdb]
    omega

theorem transfer_self_witness :
    (4 : Nat) ≤ BalancesPallet.balance { balances := [("alice", 10)] } "alice" ∧
    BalancesPallet.balance { balances := [("alice", 10)] } "alice" ≤ U128MAX ∧
    ((BalancesPallet.transfer { balances := [("alice", 10)] } "alice" "alice" 4).1
        = .ok () ∧
      (BalancesPallet.transfer { balances := [("alice", 10)] } "alice" "alice" 4).2.balance
        "alice" = BalancesPallet.balance { balances := [("alice", 10)] } "alice") :=
  ⟨by decide, by decide,
   transfer_self { balances := [("alice", 10)] } "alice" 4 (by decide) (by decide)⟩

/-- Claim C8: runtime dispatch is a pure routing layer: it never touches
the system pallet, and on each call variant it returns the target module
result unchanged, installs exactly the target module's new state, and
leaves the other module untouched. -/
theorem dispatch_routes (rt : Runtime) (caller : String) (call : RuntimeCall) :
    (rt.dispatch caller call).2.system = rt.system ∧
    (∀ bc, call = RuntimeCall.Balances bc →
      (rt.dispatch caller call).1 = (rt.balances.dispatch caller bc).1 ∧
      (rt.dispatch caller call).2.balances = (rt.balances.dispatch caller bc).2 ∧
      (rt.dispatch caller call).2.poe = rt.poe) ∧
    (∀ pc, call = RuntimeCall.ProofOfExistence pc →
      (rt.dispatch caller call).1 = (rt.poe.dispatch caller pc).1 ∧
      (rt.dispatch caller call).2.poe = (rt.poe.dispatch caller pc).2 ∧
      (rt.dispatch caller call).2.balances = rt.balances) := by
  refine ⟨dispatch_system rt caller call, ?_, ?_⟩
  · intro bc hc
    subst hc
    exact ⟨rfl, rfl, rfl⟩
  · intro pc hc
    subst hc
    exact ⟨rfl, rfl, rfl⟩

theorem dispatch_routes_witness :
    ((Runtime.new.dispatch "alice"
          (RuntimeCall.Balances (BalancesCall.transfer "bob" 5))).1
        = (Runtime.new.balances.dispatch "alice" (BalancesCall.transfer "bob" 5)).1 ∧
      (Runtime.new.dispatch "alice"
          (RuntimeCall.Balances (BalancesCall.transfer "bob" 5))).2.balances
        = (Runtime.new.balances.dispatch "alice" (BalancesCall.transfer "bob" 5)).2 ∧
      (Runtime.new.dispatch "alice"
          (RuntimeCall.Balances (BalancesCall.transfer "bob" 5))).2.poe
        = Runtime.new.poe) ∧
    ((Runtime.new.dispatch "bob"
          (RuntimeCall.ProofOfExistence (PoeCall.create_claim "doc"))).1
        = (Runtime.new.poe.dispatch "bob" (PoeCall.create_claim "doc")).1 ∧
      (Runtime.new.dispatch "bob"
          (RuntimeCall.ProofOfExistence (PoeCall.create_claim "doc"))).2.poe
        = (Runtime.new.poe.dispatch "bob" (PoeCall.create_claim "doc")).2 ∧
      (Runtime.new.dispatch "bob"
          (RuntimeCall.ProofOfExistence (PoeCall.create_claim "doc"))).2.balances
        = Runtime.new.balances) :=
  ⟨(dispatch_routes Runtime.new "alice"
      (RuntimeCall.Balances (BalancesCall.transfer "bob" 5))).2.1
      (BalancesCall.transfer "bob" 5) rfl,
   (dispatch_routes Runtime.new "bob"
      (RuntimeCall.ProofOfExistence (PoeCall.create_claim "doc"))).2.2
      (PoeCall.create_claim "doc") rfl⟩
